import Mathlib

/-!
Verification of the BiModalClust clustering engine (`bi_modal_clust.py`)
through a shallow embedding.

Conventions of the embedding:
* numpy float64 values are modelled as exact rationals (`ℚ`); the IEEE
  infinity `np.inf` is modelled as `⊤` in `WithTop ℚ`;
* a cluster-center matrix is a `List (List ℚ)`; inside the local search a
  row that the source fills with the NaN sentinel is modelled as `none` in
  `List (Option (List ℚ))` (a NaN row compares false against every finite
  distance, exactly as IEEE NaN does in the source's `d < min_d` test);
* numba `prange` loops are pure reductions in the source, so the parallel
  variants are embedded with the same sequential semantics as their loops;
* randomness is passed explicitly: one integer for `np.random.randint` and
  a stage-indexed oracle `floats : ℕ → ℕ → ℚ` for `np.random.random_sample`
  (stage `c`, draw `j`); claims settled here never reach a random branch,
  and every theorem quantifies over the oracle;
* the unbounded `while` of the local search is driven by explicit fuel and
  returns `none` when the fuel runs out before the source would break.
-/

namespace BiModalClust

/-! ### Basic vector helpers -/

/-- Inner product of two rows (`np.dot` over one row pair); arrays in the
source are rectangular, so the `zip` truncation is never exercised. -/
def dot (xs ys : List ℚ) : ℚ :=
  ((xs.zip ys).map (fun ab => ab.1 * ab.2)).sum

/-- Squared norm of a row (`np.sum(X*X, axis=1)` for one row). -/
def sqnorm (xs : List ℚ) : ℚ :=
  ((xs.map (fun x => x * x))).sum

/-- `np.cumsum` of a vector. -/
def cumsum (l : List ℚ) : List ℚ :=
  (l.scanl (fun a b => a + b) 0).tail

/-- `np.searchsorted(a, v)` (left insertion point).  For the sorted arrays
the source applies it to (cumulative sums of nonnegative squared
distances) it equals the number of entries strictly below `v`. -/
def searchsortedLeft (a : List ℚ) (v : ℚ) : ℕ :=
  (a.filter (fun x => decide (x < v))).length

/-- Elementwise `np.minimum` of two vectors. -/
def zmin (a b : List ℚ) : List ℚ :=
  (a.zip b).map (fun p => min p.1 p.2)

/-- Minimum of column `j` of a matrix, seeded with row 0 and refined with a
strict comparison, exactly like the `min_dist` loop of `kmeans_plus_plus`
(lines 91-96 of the source). -/
def colMin (mat : List (List ℚ)) (j : ℕ) : ℚ :=
  match mat with
  | [] => 0
  | r :: rs => rs.foldl (fun m row => if row.getD j 0 < m then row.getD j 0 else m) (r.getD j 0)

/-- `np.argmin`: index of the first occurrence of the least element.
`d` is the default used to read past the end; it is never reached on the
nonempty lists the source applies `argmin` to. -/
def npArgminD {α : Type} [LinearOrder α] (d : α) : List α → ℕ
  | [] => 0
  | a :: rest =>
    if rest = [] then 0
    else
      let j := npArgminD d rest
      if rest.getD j d < a then j + 1 else 0

/-! ### Distance primitives (source lines 47-72) -/

/-- `distance_mat(X, Y)`: the `a × b` matrix of squared Euclidean distances
in the inner-product expansion `NX[i] - 2*out[i,j] + NY[j]`. -/
def distance_mat (X Y : List (List ℚ)) : List (List ℚ) :=
  X.map (fun x => Y.map (fun y => sqnorm x - 2 * dot x y + sqnorm y))

/-- `distance_mat_parallel(X, Y)`: the prange version accumulates
`out[j, i] = NX[j] - 2*Σ_k X[j,k]*Y[i,k] + NY[i]`, the same expansion with
the roles of the loops swapped; its result matrix is identical. -/
def distance_mat_parallel (X Y : List (List ℚ)) : List (List ℚ) :=
  X.map (fun x => Y.map (fun y => sqnorm x - 2 * dot x y + sqnorm y))

/-! ### Seeding: greedy K-means++ (source lines 75-148) -/

/-- One stage of the greedy K-means++ loop (lines 99-109): draw
`n_candidates` weighted candidate indices, evaluate the potential of each,
keep the best.  Returns (chosen index, new potential, new closest-distance
vector, number of distance evaluations added). -/
def kppStage (floats : ℕ → ℕ → ℚ) (points : List (List ℚ)) (n_candidates : ℕ)
    (c : ℕ) (closest : List ℚ) (currentPot : ℚ) : ℤ × ℚ × List ℚ × ℕ :=
  let rand_vals := (List.range n_candidates).map (fun j => floats c j * currentPot)
  let cums := cumsum closest
  let candidate_ids := rand_vals.map (fun v => searchsortedLeft cums v)
  let dmat := distance_mat (candidate_ids.map (fun i => points.getD i [])) points
  let nd := n_candidates * points.length
  let dists := dmat.map (fun row => zmin row closest)
  let pots := dists.map List.sum
  let best := npArgminD 0 pots
  (((candidate_ids.getD best 0 : ℕ) : ℤ), pots.getD best 0, dists.getD best [], nd)

/-- The `for c in range(n_added_centers, n_new_centers)` loop of
`kmeans_plus_plus`; recursion on the number of stages left. -/
def kppLoop (floats : ℕ → ℕ → ℚ) (points : List (List ℚ)) (n_candidates : ℕ) :
    ℕ → ℕ → List ℤ → List ℚ → ℚ → ℕ → List ℤ × ℕ
  | 0, _, inds, _, _, nd => (inds, nd)
  | cnt + 1, c, inds, closest, pot, nd =>
    let r := kppStage floats points n_candidates c closest pot
    kppLoop floats points n_candidates cnt (c + 1) (inds.set c r.1) r.2.2.1 r.2.1 (nd + r.2.2.2)

/-- `kmeans_plus_plus(points, centers, n_new_centers, n_candidates)`
(source lines 75-110).  `randintVal` feeds `np.random.randint(n_points)`
(reduced mod `n_points` as numpy guarantees), `floats` feeds
`np.random.random_sample`.  Degenerate inputs (the guard on line 81) skip
the whole body and return the `-1`-filled index array with 0 distance
evaluations. -/
def kmeans_plus_plus (randintVal : ℕ) (floats : ℕ → ℕ → ℚ)
    (points centers : List (List ℚ)) (n_new_centers n_candidates : ℕ) : List ℤ × ℕ :=
  let n_points := points.length
  let n_features := (points.headD []).length
  let n_centers := centers.length
  let center_inds : List ℤ := List.replicate n_new_centers (-1)
  if 0 < n_points ∧ 0 < n_features ∧ 1 < n_new_centers ∧ 0 < n_candidates then
    if n_centers = 0 then
      let first := randintVal % n_points
      let closest := (distance_mat [points.getD first []] points).headD []
      kppLoop floats points n_candidates (n_new_centers - 1) 1
        (center_inds.set 0 (first : ℤ)) closest closest.sum n_points
    else
      let dmat := distance_mat centers points
      let closest := (List.range n_points).map (colMin dmat)
      kppLoop floats points n_candidates n_new_centers 0
        center_inds closest closest.sum (n_centers * n_points)
  else (center_inds, 0)

/-- `kmeans_plus_plus_parallel` (source lines 113-148): same algorithm with
the parallel distance primitive and a prange reduction for the column
minima; elementwise it computes the same values. -/
def kmeans_plus_plus_parallel (randintVal : ℕ) (floats : ℕ → ℕ → ℚ)
    (points centers : List (List ℚ)) (n_new_centers n_candidates : ℕ) : List ℤ × ℕ :=
  let n_points := points.length
  let n_features := (points.headD []).length
  let n_centers := centers.length
  let center_inds : List ℤ := List.replicate n_new_centers (-1)
  if 0 < n_points ∧ 0 < n_features ∧ 1 < n_new_centers ∧ 0 < n_candidates then
    if n_centers = 0 then
      let first := randintVal % n_points
      let closest := (distance_mat_parallel [points.getD first []] points).headD []
      kppLoop floats points n_candidates (n_new_centers - 1) 1
        (center_inds.set 0 (first : ℤ)) closest closest.sum n_points
    else
      let dmat := distance_mat_parallel centers points
      let closest := (List.range n_points).map (colMin dmat)
      kppLoop floats points n_candidates n_new_centers 0
        center_inds closest closest.sum (n_centers * n_points)
  else (center_inds, 0)

/-! ### Local search: Lloyd's algorithm, `kmeans` (source lines 151-214) -/

/-- The `use_inner_product = True` branch of the closure `dist2`:
`s1 - 2*s2 + s3` over the coordinates of the two rows. -/
def dist2Inner (p q : List ℚ) : ℚ :=
  ((p.zip q).map (fun ab => ab.1 * ab.1)).sum
    - 2 * ((p.zip q).map (fun ab => ab.1 * ab.2)).sum
    + ((p.zip q).map (fun ab => ab.2 * ab.2)).sum

/-- The `use_inner_product = False` branch of `dist2`: direct sum of
squared coordinate differences. -/
def dist2Direct (p q : List ℚ) : ℚ :=
  ((p.zip q).map (fun ab => (ab.1 - ab.2) ^ 2)).sum

/-- The closure `dist2` of `kmeans`, selected by the flag. -/
def dist2 (useInner : Bool) (p q : List ℚ) : ℚ :=
  if useInner then dist2Inner p q else dist2Direct p q

/-- The inner `for j in range(k)` scan of the assignment step (lines
182-188): nearest center of one point.  A degenerate (`none`, NaN-filled)
center row yields a NaN distance and `NaN < min_d` is false, so the row is
skipped, exactly as in the source. -/
def nearest (useInner : Bool) (centers : List (Option (List ℚ))) (p : List ℚ) :
    WithTop ℚ × ℤ :=
  centers.enum.foldl
    (fun acc jc =>
      match jc.2 with
      | none => acc
      | some c =>
        if (dist2 useInner p c : WithTop ℚ) < acc.1
        then ((dist2 useInner p c : WithTop ℚ), (jc.1 : ℤ))
        else acc)
    (⊤, -1)

/-- The assignment step (lines 179-192) over the list of
(point, previous assignment) pairs; returns the accumulated objective `f`,
the number of changed assignments, and the new assignment vector. -/
def assignStep (useInner : Bool) (centers : List (Option (List ℚ))) :
    List (List ℚ × ℤ) → WithTop ℚ × ℕ × List ℤ
  | [] => (0, 0, [])
  | pa :: rest =>
    let r := nearest useInner centers pa.1
    let s := assignStep useInner centers rest
    (r.1 + s.1, (if pa.2 = r.2 then 0 else 1) + s.2.1, r.2 :: s.2.2)

/-- The points assigned to cluster `i` (the accumulation on lines 204-209;
the `center_ind > -1` guard is subsumed by `pa.2 = i` with `i : ℕ`). -/
def clusterMembers (pairs : List (List ℚ × ℤ)) (i : ℕ) : List (List ℚ) :=
  (pairs.filter (fun pa => decide (pa.2 = (i : ℤ)))).map Prod.fst

/-- Mean of a cluster, coordinatewise (`center_sums[i,j] / center_counts[i]`). -/
def centroidOf (pts : List (List ℚ)) (n : ℕ) : List ℚ :=
  (List.range n).map (fun j => (pts.map (fun p => p.getD j 0)).sum / (pts.length : ℚ))

/-- The update step (lines 199-213): every center becomes the mean of its
assigned points; a center with no assigned points keeps the NaN fill,
modelled as `none`. -/
def updateCenters (pairs : List (List ℚ × ℤ)) (k n : ℕ) : List (Option (List ℚ)) :=
  (List.range k).map (fun i =>
    let pts := clusterMembers pairs i
    if pts.length = 0 then none else some (centroidOf pts n))

/-- The boolean `(tol > 0.0) and (tolerance <= tol)` would use
`tolerance = 1 - f/objective_previous` computed in IEEE float arithmetic.
This decides `1 - f/prev <= tol` under the IEEE conventions the source
relies on: `finite/inf = 0`, `inf/inf = NaN`, `finite/0 = ±inf`,
`0/0 = NaN`, and every comparison against NaN is false. -/
def toleranceLE (f prev : WithTop ℚ) (tol : ℚ) : Bool :=
  if f = ⊤ then
    if prev = ⊤ then false
    else if prev < (0 : WithTop ℚ) then false
    else true
  else if prev = ⊤ then decide ((1 : ℚ) ≤ tol)
  else
    let q := f.untop' 0
    let p := prev.untop' 0
    if p = 0 then (if q = 0 then false else decide (0 < q))
    else decide (1 - q / p ≤ tol)

/-- The `while True` loop of `kmeans` (lines 178-213), on explicit fuel.
State: current assignment, centers, previous objective, iterations done.
On break it returns `(f, n_iters, assignment, centers)`. -/
def kmeansLoop (useInner : Bool) (maxIters : ℤ) (tol : ℚ)
    (points : List (List ℚ)) (k n : ℕ) :
    ℕ → List ℤ → List (Option (List ℚ)) → WithTop ℚ → ℕ →
    Option (WithTop ℚ × ℕ × List ℤ × List (Option (List ℚ)))
  | 0, _, _, _, _ => none
  | fuel + 1, asg, centers, objPrev, nIters =>
    let A := assignStep useInner centers (points.zip asg)
    let nIters' := nIters + 1
    let brk := (decide (0 ≤ maxIters) && decide (maxIters ≤ (nIters' : ℤ)))
      || (A.2.1 == 0) || (decide (0 < tol) && toleranceLE A.1 objPrev tol)
    if brk then some (A.1, nIters', A.2.2, centers)
    else kmeansLoop useInner maxIters tol points k n fuel
      A.2.2 (updateCenters (points.zip A.2.2) k n) A.1 nIters'

/-- `kmeans(points, centers, max_iters, tol, use_inner_product)` (source
lines 151-214).  Returns `some (f, n_iters, assignment, n_dists, centers)`
— the source's four results plus the final state of the center matrix it
mutates in place — or `none` if the fuel ran out before the loop broke.
When the guard `(m > 0) and (n > 0) and (k > 0)` fails the loop never runs
and `(inf, 0, full(m, -1), 0)` is returned with the centers untouched. -/
def kmeans (useInner : Bool) (fuel : ℕ) (points : List (List ℚ))
    (centers : List (Option (List ℚ))) (maxIters : ℤ) (tol : ℚ) :
    Option (WithTop ℚ × ℕ × List ℤ × ℕ × List (Option (List ℚ))) :=
  let m := points.length
  let n := (points.headD []).length
  let k := centers.length
  if 0 < m ∧ 0 < n ∧ 0 < k then
    (kmeansLoop useInner maxIters tol points k n fuel
        (List.replicate m (-1)) centers ⊤ 0).map
      (fun r => (r.1, r.2.1, r.2.2.1, r.2.1 * k * m, r.2.2.2))
  else some (⊤, 0, List.replicate m (-1), 0, centers)

/-- `kmeans_parallel` (source lines 217-280): identical computation with a
prange assignment loop; the reduction it performs is the same. -/
def kmeans_parallel (useInner : Bool) (fuel : ℕ) (points : List (List ℚ))
    (centers : List (Option (List ℚ))) (maxIters : ℤ) (tol : ℚ) :
    Option (WithTop ℚ × ℕ × List ℤ × ℕ × List (Option (List ℚ))) :=
  kmeans useInner fuel points centers maxIters tol

/-- Spec-side comparison definition, following the spec's words in §8:
the "total sum of squared deviations" of the points from a single center,
summed coordinatewise. -/
def specTotalSquaredDeviation (pts : List (List ℚ)) (c : List ℚ) : ℚ :=
  (pts.map (fun p => ((p.zip c).map (fun ab => (ab.1 - ab.2) ^ 2)).sum)).sum

/-! ### Shaking: masked center reinitialization -/

/-- Python index semantics for fancy indexing: a negative index counts from
the end of the axis. -/
def pyIndex (i : ℤ) (len : ℕ) : ℕ :=
  (if i < 0 then i + len else i).toNat

/-- `sample[center_inds, :]`: gather rows of `sample` by (possibly
negative) indices. -/
def npTake (sample : List (List ℚ)) (inds : List ℤ) : List (List ℚ) :=
  inds.map (fun i => sample.getD (pyIndex i sample.length) [])

/-- `new_centers[shaken_mask, :] = rows`: boolean-mask assignment; the rows
are consumed in order at the `true` positions of the mask. -/
def maskedAssign : List (List ℚ) → List Bool → List (List ℚ) → List (List ℚ)
  | [], _, _ => []
  | c :: cs, [], rows => c :: maskedAssign cs [] rows
  | c :: cs, b :: bs, rows =>
    if b then rows.headD [] :: maskedAssign cs bs rows.tail
    else c :: maskedAssign cs bs rows

/-! ### Search-loop state machines

The loop bodies mix randomness, wall-clock reads and the primitives above;
the claims about them concern the loop guards, the incumbent/acceptance
update and the shaking-power update, so those parts are embedded as
explicit step functions on the loop state, with the freshly sampled
objective, centers and clock reading of the iteration as inputs.  The
center matrix is an abstract type parameter: none of the settled claims
inspects it. -/

/-- Loop guard of `bi_modal_clust`, line 308:
`while (n_iter < max_iter) and (cpu_time < t_max)`. -/
def biModalClustGuard (nIter maxIter : ℤ) (cpuTime tMax : ℚ) : Bool :=
  decide (nIter < maxIter) && decide (cpuTime < tMax)

/-- Loop guard of `big_vns_clust_inner`, line 525:
`while (n_iter < max_iter or max_iter <= 0) and (cpu_time < t_max or t_max <= 0.0)`. -/
def bigVnsInnerGuard (nIter : ℕ) (maxIter : ℤ) (cpuTime tMax : ℚ) : Bool :=
  (decide ((nIter : ℤ) < maxIter) || decide (maxIter ≤ 0))
    && (decide (cpuTime < tMax) || decide (tMax ≤ 0))

/-- Trajectory state of `bi_modal_clust` (lines 299-306). -/
structure BmcState (α : Type) where
  objective : WithTop ℚ
  centroids : α
  bestTime : ℚ
  bestNDists : ℕ
  bestNIter : ℕ
  p : ℤ
  nIter : ℕ
  deriving DecidableEq

/-- The unconditional shaking-power advance
`p += 1; if p > p_max: p = 1` (lines 350-352 and 560-562). -/
def wrapAdvance (pMax p : ℤ) : ℤ :=
  if p + 1 > pMax then 1 else p + 1

/-- Incumbent update and shaking-power advance of `bi_modal_clust`
(lines 338-352): `n_iter += 1`; accept if strictly improving; then advance
the power with wrap-around, in both branches (the source advances it after
the `if` block, unconditionally). -/
def biModalClustUpdate {α : Type} (pMax : ℤ) (st : BmcState α)
    (obj : WithTop ℚ) (centers : α) (cpuTime : ℚ) (nDists : ℕ) : BmcState α :=
  if obj < st.objective then
    { st with objective := obj, centroids := centers, bestTime := cpuTime,
              bestNDists := nDists, bestNIter := st.nIter + 1, nIter := st.nIter + 1,
              p := wrapAdvance pMax st.p }
  else { st with nIter := st.nIter + 1, p := wrapAdvance pMax st.p }

/-- Bounds-checked array write (numpy raises `IndexError` outside the
axis; numba compiles the same write unchecked, i.e. it is not well-defined
there either). -/
def listSet {α : Type} (l : List α) (i : ℕ) (a : α) : Option (List α) :=
  if i < l.length then some (l.set i a) else none

/-- Trajectory state of `big_vns_clust_inner` (lines 516-524), with the
per-iteration trace arrays `objectives` and `objective_times`. -/
structure InnerState (α : Type) where
  objective : WithTop ℚ
  centers : α
  objectives : List (WithTop ℚ)
  objectiveTimes : List ℚ
  bestTime : ℚ
  bestNIter : ℕ
  p : ℤ
  nIter : ℕ
  deriving DecidableEq

/-- Allocation of the inner-loop state (lines 516-524):
`objectives = np.full(max_iter, np.inf)` and
`objective_times = np.full(max_iter, 0.0)`; `np.full` raises for a
negative size, hence the `none`. -/
def bigVnsInnerInit {α : Type} (initCenters : α) (maxIter : ℤ) : Option (InnerState α) :=
  if maxIter < 0 then none
  else some { objective := ⊤, centers := initCenters,
              objectives := List.replicate maxIter.toNat ⊤,
              objectiveTimes := List.replicate maxIter.toNat 0,
              bestTime := 0, bestNIter := 0, p := 1, nIter := 0 }

/-- Neighborhood-change step of `big_vns_clust_inner` (lines 548-562):
`n_iter += 1`; on strict improvement record the objective and clock into
`objectives[n_iter - 1]` and `objective_times[n_iter - 1]` and accept;
then advance `p` with wrap-around.  `none` when a trace write is out of
bounds. -/
def bigVnsInnerStep {α : Type} (pMax : ℤ) (st : InnerState α)
    (newObjective : WithTop ℚ) (newCenters : α) (cpuTime : ℚ) : Option (InnerState α) :=
  if newObjective < st.objective then
    match listSet st.objectives (st.nIter + 1 - 1) newObjective,
          listSet st.objectiveTimes (st.nIter + 1 - 1) cpuTime with
    | some objs, some tms =>
      some { st with objectives := objs, objective := newObjective,
                     centers := newCenters, objectiveTimes := tms,
                     bestTime := cpuTime, bestNIter := st.nIter + 1, nIter := st.nIter + 1,
                     p := wrapAdvance pMax st.p }
    | _, _ => none
  else some { st with nIter := st.nIter + 1, p := wrapAdvance pMax st.p }

/-- `np.argmin` over the shared best-objective array. -/
def npArgmin (l : List (WithTop ℚ)) : ℕ :=
  npArgminD ⊤ l

/-- Neighborhood-change step of a phase-1 worker of
`bi_modal_clust_hybrid` (lines 426-439): acceptance baseline is the
worker's own best `best_objectives[t]`; on acceptance the power resets to
1, on rejection `ps[t] = max(ps[t] + 1, p_max)`.  Returns (new own best,
new power). -/
def hybridPhase1Update (pMax : ℤ) (bestObj : WithTop ℚ) (p : ℤ)
    (newObj : WithTop ℚ) : WithTop ℚ × ℤ :=
  if newObj < bestObj then (newObj, 1) else (bestObj, max (p + 1) pMax)

/-- Neighborhood-change step of a phase-2 worker of
`bi_modal_clust_hybrid` (lines 447-448 and 476-488): the baseline is the
globally best objective `best_objectives[np.argmin(best_objectives)]`
snapshotted at the start of the iteration; on acceptance worker `t`
overwrites its own entry.  Returns (new best-objective array, new power). -/
def hybridPhase2Update (pMax : ℤ) (bestObjs : List (WithTop ℚ)) (t : ℕ) (p : ℤ)
    (newObj : WithTop ℚ) : List (WithTop ℚ) × ℤ :=
  let bestObjective := bestObjs.getD (npArgmin bestObjs) ⊤
  if newObj < bestObjective then (bestObjs.set t newObj, 1)
  else (bestObjs, max (p + 1) pMax)

/-! ### Module namespace model (for the name-resolution claim)

Python resolves a global name when the call executes.  The module's global
namespace holds exactly the imported names and the top-level defs of
`bi_modal_clust.py`; the loop body of `bi_modal_clust` also looks up two
names with no binding anywhere in the file. -/

/-- The top-level `def`s of `bi_modal_clust.py`, in source order. -/
def moduleTopLevelDefs : List String :=
  ["normalization", "empty_state", "distance_mat", "distance_mat_parallel",
   "kmeans_plus_plus", "kmeans_plus_plus_parallel", "kmeans", "kmeans_parallel",
   "bi_modal_clust", "bi_modal_clust_hybrid", "big_vns_clust_inner"]

/-- The names bound by the import statements (lines 15-20). -/
def moduleImportedNames : List String :=
  ["math", "time", "np", "nb", "njit", "prange", "objmode"]

/-- Every global name bound in the module. -/
def moduleGlobalNames : List String :=
  moduleImportedNames ++ moduleTopLevelDefs

/-- The module-level function names (other than the numpy/numba modules,
which always resolve) that one iteration of the `bi_modal_clust` loop body
looks up, in call order: `kmeanspp` for the degenerate repair when
`init_mode != 0` and `n_degenerate > 0` (line 319), `kmeanspp` again for
the shaking reinitialization when `init_mode != 0` (line 327), and
`k_means` for the local search, unconditionally (line 332). -/
def biModalClustLoopGlobalCalls (initMode : ℤ) (nDegenerate : ℕ) : List String :=
  (if 0 < nDegenerate then (if initMode = 0 then [] else ["kmeanspp"]) else [])
    ++ (if initMode = 0 then [] else ["kmeanspp"])
    ++ ["k_means"]

/-- The first looked-up name with no binding in the module: where the
iteration raises `NameError` (under numba, an equivalent typing error when
the global is missing). -/
def firstUnresolvedGlobal (calls : List String) : Option String :=
  calls.find? (fun nm => !(moduleGlobalNames.contains nm))

/-! ### Helper lemmas -/

theorem npArgminD_lt_length {α : Type} [LinearOrder α] (d : α) :
    ∀ (l : List α), l ≠ [] → npArgminD d l < l.length := by
  intro l
  induction l with
  | nil => intro h; exact absurd rfl h
  | cons a rest ih =>
    intro _
    by_cases hr : rest = []
    · subst hr; simp [npArgminD]
    · have hlt := ih hr
      simp only [npArgminD, if_neg hr, List.length_cons]
      by_cases hc : rest.getD (npArgminD d rest) d < a
      · rw [if_pos hc]; omega
      · rw [if_neg hc]; omega

theorem npArgminD_getD_le {α : Type} [LinearOrder α] (d : α) :
    ∀ (l : List α) (i : ℕ), i < l.length → l.getD (npArgminD d l) d ≤ l.getD i d := by
  intro l
  induction l with
  | nil => intro i hi; simp at hi
  | cons a rest ih =>
    intro i hi
    by_cases hr : rest = []
    · subst hr
      have hi0 : i = 0 := by simpa using hi
      subst hi0
      simp [npArgminD]
    · by_cases hc : rest.getD (npArgminD d rest) d < a
      · have heq : npArgminD d (a :: rest) = npArgminD d rest + 1 := by
          simp only [npArgminD, if_neg hr, if_pos hc]
        rw [heq]
        cases i with
        | zero => exact le_of_lt hc
        | succ j =>
          have hj : j < rest.length := by
            simp only [List.length_cons] at hi; omega
          exact ih j hj
      · have heq : npArgminD d (a :: rest) = 0 := by
          simp only [npArgminD, if_neg hr, if_neg hc]
        rw [heq]
        have ha : a ≤ rest.getD (npArgminD d rest) d := le_of_not_lt hc
        cases i with
        | zero => exact le_refl _
        | succ j =>
          have hj : j < rest.length := by
            simp only [List.length_cons] at hi; omega
          exact le_trans ha (ih j hj)

theorem getD_set_self {α : Type} (l : List α) (i : ℕ) (a d : α) (h : i < l.length) :
    (l.set i a).getD i d = a := by
  induction l generalizing i with
  | nil => simp at h
  | cons x xs ih =>
    cases i with
    | zero => rfl
    | succ j => exact ih j (by simpa using h)

theorem maskedAssign_no_true :
    ∀ (cs : List (List ℚ)) (bs : List Bool) (rows : List (List ℚ)),
      true ∉ bs → maskedAssign cs bs rows = cs := by
  intro cs
  induction cs with
  | nil => intro bs rows _; rfl
  | cons c cs ih =>
    intro bs rows hb
    cases bs with
    | nil => simp [maskedAssign, ih [] rows (by simp)]
    | cons b bs =>
      have hb0 : b = false := by
        cases b
        · rfl
        · exact absurd (List.mem_cons_self true bs) hb
      subst hb0
      have : true ∉ bs := fun h => hb (List.mem_cons_of_mem _ h)
      simp [maskedAssign, ih bs rows this]

theorem maskedAssign_single :
    ∀ (j : ℕ) (cs : List (List ℚ)) (tail : List Bool) (r : List ℚ),
      j < cs.length → true ∉ tail →
      maskedAssign cs (List.replicate j false ++ true :: tail) [r] = cs.set j r := by
  intro j
  induction j with
  | zero =>
    intro cs tail r hj ht
    cases cs with
    | nil => simp at hj
    | cons c cs =>
      simp [maskedAssign, maskedAssign_no_true cs tail [] ht]
  | succ j ih =>
    intro cs tail r hj ht
    cases cs with
    | nil => simp at hj
    | cons c cs =>
      have := ih cs tail r (by simpa using hj) ht
      simp [List.replicate_succ, maskedAssign, this]

theorem npTake_neg_one (sample : List (List ℚ)) (hs : sample ≠ []) :
    npTake sample [-1] = [sample.getD (sample.length - 1) []] := by
  have hlen : 0 < sample.length := List.length_pos.mpr hs
  have hidx : pyIndex (-1) sample.length = sample.length - 1 := by
    unfold pyIndex
    rw [if_pos (by norm_num)]
    omega
  simp [npTake, hidx]

theorem zip_replicate {α β : Type} (l : List α) (b : β) :
    l.zip (List.replicate l.length b) = l.map (fun a => (a, b)) := by
  induction l with
  | nil => rfl
  | cons a t ih => simp [List.replicate_succ, ih]

/-! ### C1, C2, C4, C5, C7, C10 -/

/-- C1: whenever the outer loop of `bi_modal_clust` executes an iteration,
the body aborts with a name-resolution failure before the iteration can
complete: it unconditionally calls `k_means`, with `init_mode = 1` and
degenerate centroids (as on the first iteration) it calls `kmeanspp`
first, and neither name is bound anywhere in the module. -/
theorem biModalClust_name_resolution_failure :
    "k_means" ∉ moduleGlobalNames ∧ "kmeanspp" ∉ moduleGlobalNames ∧
    (∀ (initMode : ℤ) (nDeg : ℕ),
        "k_means" ∈ biModalClustLoopGlobalCalls initMode nDeg ∧
        (firstUnresolvedGlobal (biModalClustLoopGlobalCalls initMode nDeg)).isSome = true) ∧
    (∀ (nDeg : ℕ), 0 < nDeg →
        firstUnresolvedGlobal (biModalClustLoopGlobalCalls 1 nDeg) = some "kmeanspp") := by
  have hshape : ∀ (initMode : ℤ) (nDeg : ℕ),
      biModalClustLoopGlobalCalls initMode nDeg = ["k_means"] ∨
      biModalClustLoopGlobalCalls initMode nDeg = ["kmeanspp", "k_means"] ∨
      biModalClustLoopGlobalCalls initMode nDeg = ["kmeanspp", "kmeanspp", "k_means"] := by
    intro initMode nDeg
    unfold biModalClustLoopGlobalCalls
    by_cases h : initMode = 0 <;> by_cases h2 : 0 < nDeg <;> simp [h, h2]
  refine ⟨by decide, by decide, ?_, ?_⟩
  · intro initMode nDeg
    rcases hshape initMode nDeg with he | he | he <;> rw [he] <;> exact ⟨by decide, by decide⟩
  · intro nDeg h2
    have he : biModalClustLoopGlobalCalls 1 nDeg = ["kmeanspp", "kmeanspp", "k_means"] := by
      unfold biModalClustLoopGlobalCalls
      rw [if_pos h2, if_neg (by decide : ¬ (1 : ℤ) = 0)]
      rfl
    rw [he]
    decide

/-- C1 witness: the first iteration with `init_mode = 1` and three
degenerate centroids fails resolving `kmeanspp`. -/
theorem biModalClust_name_resolution_failure_witness :
    firstUnresolvedGlobal (biModalClustLoopGlobalCalls 1 3) = some "kmeanspp" :=
  biModalClust_name_resolution_failure.2.2.2 3 (by decide)

/-- C2 counterexample: seeding with one nonempty point, no existing
centers and `m = 1` returns the index `-1` (and 0 distance evaluations);
`-1` is not in `[0, n_points)`. -/
theorem kpp_seeding_single_request_counterexample :
    kmeans_plus_plus 0 (fun _ _ => 0) [[(0 : ℚ)]] [] 1 6 = ([-1], 0) ∧
      ¬ ((0 : ℤ) ≤ -1 ∧ (-1 : ℤ) < 1) := by
  constructor
  · rfl
  · decide

/-- C2 (amended): seeding with a non-empty point set, an empty
existing-center set and exactly one requested center skips the whole body
(the guard requires at least two new centers) and yields the placeholder
array `[-1]` with a distance-evaluation count of 0 (non-negative). -/
theorem kpp_seeding_single_request (randintVal : ℕ) (floats : ℕ → ℕ → ℚ)
    (points : List (List ℚ)) (n_candidates : ℕ) (_hp : points ≠ []) :
    kmeans_plus_plus randintVal floats points [] 1 n_candidates = ([-1], 0) := by
  unfold kmeans_plus_plus
  rw [if_neg]
  · rfl
  · rintro ⟨-, -, h, -⟩
    exact absurd h (by decide)

/-- C2 witness. -/
theorem kpp_seeding_single_request_witness :
    kmeans_plus_plus 0 (fun _ _ => 0) [[(1 : ℚ)]] [] 1 3 = ([-1], 0) :=
  kpp_seeding_single_request 0 (fun _ _ => 0) [[(1 : ℚ)]] 3 (by decide)

/-- C4: in `bi_modal_clust` a non-positive budget does not disable its
check — it falsifies the loop guard at entry (`n_iter = 0`,
`cpu_time = 0.0`), so the loop runs zero iterations: with `t_max = 0` and
a positive iteration budget, and with `max_iter = 0` and a positive time
budget, the guard is false. -/
theorem biModalClust_nonpositive_budget_halts :
    biModalClustGuard 0 5 0 0 = false ∧ biModalClustGuard 0 0 0 10 = false := by
  constructor <;> simp [biModalClustGuard]

/-- C5: with `max_iter = 0` and `t_max = 0` both exit checks of
`big_vns_clust_inner` are skipped (the guard is identically true), but the
trace arrays are allocated with `np.full(0, …)`, i.e. zero entries, and
the first improving iteration writes `objectives[0]` — out of bounds. -/
theorem bigVnsInner_unbounded_trace_overflow :
    (∀ (nIter : ℕ) (cpu : ℚ), bigVnsInnerGuard nIter 0 cpu 0 = true) ∧
    bigVnsInnerInit () 0
      = some { objective := ⊤, centers := (), objectives := [], objectiveTimes := [],
               bestTime := 0, bestNIter := 0, p := 1, nIter := 0 } ∧
    bigVnsInnerStep 5
        { objective := ⊤, centers := (), objectives := [], objectiveTimes := [],
          bestTime := 0, bestNIter := 0, p := 1, nIter := 0 } 0 () 1 = none := by
  refine ⟨?_, by decide, by decide⟩
  intro nIter cpu
  simp [bigVnsInnerGuard]

/-- C7: in both phases of `bi_modal_clust_hybrid`, a worker's shaking
power becomes 1 exactly on an accepted (strictly improving against that
phase's baseline) iteration and `max(p + 1, p_max)` on a rejected one;
hence once the power is at least `p_max`, a rejected iteration never
brings it below `p_max`. -/
theorem hybrid_shaking_power_policy :
    (∀ (pMax : ℤ) (b : WithTop ℚ) (p : ℤ) (o : WithTop ℚ),
        (hybridPhase1Update pMax b p o).2 = if o < b then 1 else max (p + 1) pMax) ∧
    (∀ (pMax : ℤ) (bs : List (WithTop ℚ)) (t : ℕ) (p : ℤ) (o : WithTop ℚ),
        (hybridPhase2Update pMax bs t p o).2
          = if o < bs.getD (npArgmin bs) ⊤ then 1 else max (p + 1) pMax) ∧
    (∀ (pMax : ℤ) (b : WithTop ℚ) (p : ℤ) (o : WithTop ℚ),
        pMax ≤ p → ¬ o < b → pMax ≤ (hybridPhase1Update pMax b p o).2) ∧
    (∀ (pMax : ℤ) (bs : List (WithTop ℚ)) (t : ℕ) (p : ℤ) (o : WithTop ℚ),
        pMax ≤ p → ¬ o < bs.getD (npArgmin bs) ⊤ →
        pMax ≤ (hybridPhase2Update pMax bs t p o).2) := by
  refine ⟨?_, ?_, ?_, ?_⟩
  · intro pMax b p o
    unfold hybridPhase1Update
    by_cases h : o < b
    · rw [if_pos h, if_pos h]
    · rw [if_neg h, if_neg h]
  · intro pMax bs t p o
    unfold hybridPhase2Update
    by_cases h : o < bs.getD (npArgmin bs) ⊤
    · rw [if_pos h, if_pos h]
    · rw [if_neg h, if_neg h]
  · intro pMax b p o _ hno
    unfold hybridPhase1Update
    rw [if_neg hno]
    exact le_max_right _ _
  · intro pMax bs t p o _ hno
    unfold hybridPhase2Update
    rw [if_neg hno]
    exact le_max_right _ _

/-- C7 witness: a rejected iteration at power 7 with `p_max = 5` keeps the
power at or above 5 in both phases. -/
theorem hybrid_shaking_power_policy_witness :
    (5 : ℤ) ≤ (hybridPhase1Update 5 0 7 3).2 ∧
    (5 : ℤ) ≤ (hybridPhase2Update 5 [0] 0 7 3).2 :=
  ⟨hybrid_shaking_power_policy.2.2.1 5 0 7 3 (by decide) (by decide),
   hybrid_shaking_power_policy.2.2.2 5 [0] 0 7 3 (by decide) (by decide)⟩

/-- C10: every request for exactly one new center returns the index array
`[-1]` from both seeding variants, and consequently a shaking step whose
mask selects exactly one center (K-means++ mode with
`min(p, n_centers) = 1`) overwrites that center row with the LAST row of
the sample, through Python's negative-index semantics. -/
theorem kpp_single_new_center_uses_last_row :
    (∀ (rv : ℕ) (fl : ℕ → ℕ → ℚ) (pts cs : List (List ℚ)) (nc : ℕ),
        (kmeans_plus_plus rv fl pts cs 1 nc).1 = [-1]) ∧
    (∀ (rv : ℕ) (fl : ℕ → ℕ → ℚ) (pts cs : List (List ℚ)) (nc : ℕ),
        (kmeans_plus_plus_parallel rv fl pts cs 1 nc).1 = [-1]) ∧
    (∀ (centers sample : List (List ℚ)) (j : ℕ) (tail : List Bool) (rv : ℕ)
        (fl : ℕ → ℕ → ℚ) (nc : ℕ),
        sample ≠ [] → j < centers.length → true ∉ tail →
        maskedAssign centers (List.replicate j false ++ true :: tail)
            (npTake sample (kmeans_plus_plus rv fl sample centers 1 nc).1)
          = centers.set j (sample.getD (sample.length - 1) [])) := by
  have h1 : ∀ (rv : ℕ) (fl : ℕ → ℕ → ℚ) (pts cs : List (List ℚ)) (nc : ℕ),
      (kmeans_plus_plus rv fl pts cs 1 nc).1 = [-1] := by
    intro rv fl pts cs nc
    unfold kmeans_plus_plus
    rw [if_neg]
    · rfl
    · rintro ⟨-, -, h, -⟩
      exact absurd h (by decide)
  refine ⟨h1, ?_, ?_⟩
  · intro rv fl pts cs nc
    unfold kmeans_plus_plus_parallel
    rw [if_neg]
    · rfl
    · rintro ⟨-, -, h, -⟩
      exact absurd h (by decide)
  · intro centers sample j tail rv fl nc hs hj ht
    rw [h1, npTake_neg_one sample hs, maskedAssign_single j centers tail _ hj ht]

/-- C10 witness: a two-center set with the first center shaken receives
the last of the two sample rows. -/
theorem kpp_single_new_center_uses_last_row_witness :
    maskedAssign [[(9 : ℚ)], [9]] (List.replicate 0 false ++ true :: [false])
        (npTake [[(1 : ℚ)], [2]]
          (kmeans_plus_plus 0 (fun _ _ => 0) [[(1 : ℚ)], [2]] [[(9 : ℚ)], [9]] 1 3).1)
      = [[(9 : ℚ)], [9]].set 0 ([[(1 : ℚ)], [2]].getD (([[(1 : ℚ)], [2]] : List (List ℚ)).length - 1) []) :=
  kpp_single_new_center_uses_last_row.2.2 [[(9 : ℚ)], [9]] [[(1 : ℚ)], [2]] 0 [false] 0
    (fun _ _ => 0) 3 (by decide) (by decide) (by decide)

/-! ### C3, C9: acceptance and shaking-power behavior of the loop steps -/

/-- C3 counterexample: an outer iteration that strictly improves the best
objective (`0 < ∞`) leaves the shaking power at 2, not 1, in both
`bi_modal_clust` and `big_vns_clust_inner` — the reset-on-improvement the
claim describes does not happen. -/
theorem shaking_power_reset_counterexample :
    ((0 : WithTop ℚ) < ⊤) ∧
    (biModalClustUpdate 5
        ({ objective := ⊤, centroids := (), bestTime := 0, bestNDists := 0,
           bestNIter := 0, p := 1, nIter := 0 } : BmcState Unit) 0 () 0 0).p = 2 ∧
    ((bigVnsInnerStep 5
        ({ objective := ⊤, centers := (), objectives := [⊤], objectiveTimes := [0],
           bestTime := 0, bestNIter := 0, p := 1, nIter := 0 } : InnerState Unit)
        0 () 1).map (fun s => s.p) = some 2) ∧
    (2 : ℤ) ≠ 1 := by
  refine ⟨by decide, by decide, by decide, by decide⟩

/-- C3 (amended): in `bi_modal_clust` and `big_vns_clust_inner` the
shaking power is advanced on every outer iteration — incremented, wrapping
to 1 once it exceeds `p_max` — regardless of whether the iteration
improved; improvement does not reset it to 1. -/
theorem shaking_power_unconditional_advance :
    (∀ (pMax : ℤ) (st : BmcState Unit) (obj : WithTop ℚ) (c : Unit) (ct : ℚ) (nd : ℕ),
        (biModalClustUpdate pMax st obj c ct nd).p
          = if st.p + 1 > pMax then 1 else st.p + 1) ∧
    (∀ (pMax : ℤ) (st st' : InnerState Unit) (obj : WithTop ℚ) (c : Unit) (ct : ℚ),
        bigVnsInnerStep pMax st obj c ct = some st' →
        st'.p = if st.p + 1 > pMax then 1 else st.p + 1) := by
  constructor
  · intro pMax st obj c ct nd
    unfold biModalClustUpdate
    by_cases h : obj < st.objective
    · rw [if_pos h]; rfl
    · rw [if_neg h]; rfl
  · intro pMax st st' obj c ct h
    unfold bigVnsInnerStep at h
    by_cases himp : obj < st.objective
    · rw [if_pos himp] at h
      rcases h1 : listSet st.objectives (st.nIter + 1 - 1) obj with - | objs
      · rw [h1] at h
        exact Option.noConfusion h
      · rcases h2 : listSet st.objectiveTimes (st.nIter + 1 - 1) ct with - | tms
        · rw [h1, h2] at h
          exact Option.noConfusion h
        · rw [h1, h2] at h
          rw [← Option.some.inj h]
          rfl
    · rw [if_neg himp] at h
      rw [← Option.some.inj h]
      rfl

/-- C3 witness: a non-wrapping advance observed through the inner-loop
step relation. -/
theorem shaking_power_unconditional_advance_witness :
    ({ objective := 0, centers := (), objectives := [0], objectiveTimes := [1],
       bestTime := 1, bestNIter := 1, p := 2, nIter := 1 } : InnerState Unit).p
      = if (1 : ℤ) + 1 > 5 then 1 else 1 + 1 :=
  shaking_power_unconditional_advance.2 5
    ({ objective := ⊤, centers := (), objectives := [⊤], objectiveTimes := [0],
       bestTime := 0, bestNIter := 0, p := 1, nIter := 0 } : InnerState Unit)
    ({ objective := 0, centers := (), objectives := [0], objectiveTimes := [1],
       bestTime := 1, bestNIter := 1, p := 2, nIter := 1 } : InnerState Unit)
    0 () 1 (by decide)

/-- C9: in every search-loop variant the best-known objective of a
trajectory (for the hybrid variant, of each worker) never increases across
an outer iteration, and it changes only when the freshly sampled objective
is strictly below the acceptance baseline of that iteration (the
trajectory's own best; in hybrid phase 2, the snapshotted global best). -/
theorem best_objective_monotone :
    (∀ (pMax : ℤ) (st : BmcState Unit) (obj : WithTop ℚ) (c : Unit) (ct : ℚ) (nd : ℕ),
        (biModalClustUpdate pMax st obj c ct nd).objective ≤ st.objective ∧
        ((biModalClustUpdate pMax st obj c ct nd).objective ≠ st.objective →
          obj < st.objective)) ∧
    (∀ (pMax : ℤ) (st st' : InnerState Unit) (obj : WithTop ℚ) (c : Unit) (ct : ℚ),
        bigVnsInnerStep pMax st obj c ct = some st' →
        st'.objective ≤ st.objective ∧
        (st'.objective ≠ st.objective → obj < st.objective)) ∧
    (∀ (pMax : ℤ) (b : WithTop ℚ) (p : ℤ) (o : WithTop ℚ),
        (hybridPhase1Update pMax b p o).1 ≤ b ∧
        ((hybridPhase1Update pMax b p o).1 ≠ b → o < b)) ∧
    (∀ (pMax : ℤ) (bs : List (WithTop ℚ)) (t : ℕ) (p : ℤ) (o : WithTop ℚ),
        t < bs.length →
        (hybridPhase2Update pMax bs t p o).1.getD t ⊤ ≤ bs.getD t ⊤ ∧
        ((hybridPhase2Update pMax bs t p o).1.getD t ⊤ ≠ bs.getD t ⊤ →
          o < bs.getD (npArgmin bs) ⊤)) := by
  refine ⟨?_, ?_, ?_, ?_⟩
  · intro pMax st obj c ct nd
    unfold biModalClustUpdate
    by_cases h : obj < st.objective
    · rw [if_pos h]
      exact ⟨le_of_lt h, fun _ => h⟩
    · rw [if_neg h]
      exact ⟨le_refl _, fun hne => absurd rfl hne⟩
  · intro pMax st st' obj c ct h
    unfold bigVnsInnerStep at h
    by_cases himp : obj < st.objective
    · rw [if_pos himp] at h
      rcases h1 : listSet st.objectives (st.nIter + 1 - 1) obj with - | objs
      · rw [h1] at h
        exact Option.noConfusion h
      · rcases h2 : listSet st.objectiveTimes (st.nIter + 1 - 1) ct with - | tms
        · rw [h1, h2] at h
          exact Option.noConfusion h
        · rw [h1, h2] at h
          rw [← Option.some.inj h]
          exact ⟨le_of_lt himp, fun _ => himp⟩
    · rw [if_neg himp] at h
      rw [← Option.some.inj h]
      exact ⟨le_refl _, fun hne => absurd rfl hne⟩
  · intro pMax b p o
    unfold hybridPhase1Update
    by_cases h : o < b
    · rw [if_pos h]
      exact ⟨le_of_lt h, fun _ => h⟩
    · rw [if_neg h]
      exact ⟨le_refl _, fun hne => absurd rfl hne⟩
  · intro pMax bs t p o ht
    unfold hybridPhase2Update
    have hbase : bs.getD (npArgmin bs) ⊤ ≤ bs.getD t ⊤ := npArgminD_getD_le ⊤ bs t ht
    by_cases h : o < bs.getD (npArgmin bs) ⊤
    · rw [if_pos h]
      have hset : (bs.set t o).getD t ⊤ = o := getD_set_self bs t o ⊤ ht
      rw [hset]
      exact ⟨le_of_lt (lt_of_lt_of_le h hbase), fun _ => h⟩
    · rw [if_neg h]
      exact ⟨le_refl _, fun hne => absurd rfl hne⟩

/-- C9 witness: the inner-loop step and the hybrid phase-2 step observed
at concrete states. -/
theorem best_objective_monotone_witness :
    (({ objective := 0, centers := (), objectives := [0], objectiveTimes := [1],
        bestTime := 1, bestNIter := 1, p := 2, nIter := 1 } : InnerState Unit).objective
        ≤ ({ objective := ⊤, centers := (), objectives := [⊤], objectiveTimes := [0],
             bestTime := 0, bestNIter := 0, p := 1, nIter := 0 } : InnerState Unit).objective ∧
      (({ objective := 0, centers := (), objectives := [0], objectiveTimes := [1],
          bestTime := 1, bestNIter := 1, p := 2, nIter := 1 } : InnerState Unit).objective
          ≠ ({ objective := ⊤, centers := (), objectives := [⊤], objectiveTimes := [0],
               bestTime := 0, bestNIter := 0, p := 1, nIter := 0 } : InnerState Unit).objective →
        (0 : WithTop ℚ) < ⊤)) ∧
    ((hybridPhase2Update 5 [(⊤ : WithTop ℚ)] 0 1 0).1.getD 0 ⊤ ≤ [(⊤ : WithTop ℚ)].getD 0 ⊤ ∧
      ((hybridPhase2Update 5 [(⊤ : WithTop ℚ)] 0 1 0).1.getD 0 ⊤ ≠ [(⊤ : WithTop ℚ)].getD 0 ⊤ →
        (0 : WithTop ℚ) < [(⊤ : WithTop ℚ)].getD (npArgmin [(⊤ : WithTop ℚ)]) ⊤)) :=
  ⟨best_objective_monotone.2.1 5
      ({ objective := ⊤, centers := (), objectives := [⊤], objectiveTimes := [0],
         bestTime := 0, bestNIter := 0, p := 1, nIter := 0 } : InnerState Unit)
      ({ objective := 0, centers := (), objectives := [0], objectiveTimes := [1],
         bestTime := 1, bestNIter := 1, p := 2, nIter := 1 } : InnerState Unit)
      0 () 1 (by decide),
   best_objective_monotone.2.2.2 5 [(⊤ : WithTop ℚ)] 0 1 0 (by decide)⟩

/-! ### Lemmas on the local search -/

theorem sum_sq_expand (zs : List (ℚ × ℚ)) :
    (zs.map (fun ab => ab.1 * ab.1)).sum - 2 * (zs.map (fun ab => ab.1 * ab.2)).sum
        + (zs.map (fun ab => ab.2 * ab.2)).sum
      = (zs.map (fun ab => (ab.1 - ab.2) ^ 2)).sum := by
  induction zs with
  | nil => simp
  | cons a t ih =>
    simp only [List.map_cons, List.sum_cons]
    linear_combination ih

theorem dist2_eq_sq (ui : Bool) (p q : List ℚ) :
    dist2 ui p q = ((p.zip q).map (fun ab => (ab.1 - ab.2) ^ 2)).sum := by
  cases ui
  · rfl
  · exact sum_sq_expand (p.zip q)

theorem nearest_singleton (ui : Bool) (c p : List ℚ) :
    nearest ui [some c] p = ((dist2 ui p c : WithTop ℚ), 0) := by
  unfold nearest
  rw [show ([some c] : List (Option (List ℚ))).enum = [(0, some c)] from rfl]
  simp [WithTop.coe_lt_top]

theorem assignStep_singleton (ui : Bool) (c : List ℚ) (v : ℤ) (pts : List (List ℚ)) :
    assignStep ui [some c] (pts.map (fun p => (p, v)))
      = ((((pts.map (fun p => dist2 ui p c)).sum : ℚ) : WithTop ℚ),
         (if v = 0 then 0 else pts.length),
         List.replicate pts.length (0 : ℤ)) := by
  induction pts with
  | nil => simp [assignStep]
  | cons p t ih =>
    simp only [List.map_cons, assignStep, nearest_singleton, ih, List.sum_cons,
      List.length_cons, List.replicate_succ, WithTop.coe_add]
    by_cases hv : v = 0
    · simp [hv]
    · simp [hv]
      omega

theorem filter_snd_eq_zero (pts : List (List ℚ)) :
    ((pts.map (fun p => (p, (0 : ℤ)))).filter
        (fun pa => decide (pa.2 = ((0 : ℕ) : ℤ)))).map Prod.fst = pts := by
  induction pts with
  | nil => rfl
  | cons p t ih => simp_all [List.filter]

theorem updateCenters_singleton (pts : List (List ℚ)) (n : ℕ) (h : pts ≠ []) :
    updateCenters (pts.map (fun p => (p, (0 : ℤ)))) 1 n = [some (centroidOf pts n)] := by
  simp only [updateCenters, clusterMembers]
  rw [show List.range 1 = [0] from rfl]
  simp only [List.map_cons, List.map_nil]
  rw [filter_snd_eq_zero]
  rw [if_neg (fun hc => h (List.length_eq_zero.mp hc))]

theorem toleranceLE_coe_top (q tol : ℚ) :
    toleranceLE (q : WithTop ℚ) ⊤ tol = decide ((1 : ℚ) ≤ tol) := by
  unfold toleranceLE
  rw [if_neg (WithTop.coe_ne_top), if_pos rfl]

theorem kmeansLoop_break_zero (ui : Bool) (tol : ℚ) (points : List (List ℚ))
    (k n fl : ℕ) (asg : List ℤ) (centers : List (Option (List ℚ)))
    (objPrev : WithTop ℚ) :
    kmeansLoop ui 0 tol points k n (fl + 1) asg centers objPrev 0
      = some ((assignStep ui centers (points.zip asg)).1, 1,
              (assignStep ui centers (points.zip asg)).2.2, centers) := by
  simp only [kmeansLoop]
  rw [if_pos]
  simp

/-! ### C8, C6: local-search claims -/

/-- C8: `kmeans` with `max_iters = 0` performs exactly one assignment step
and no update: it returns iteration count 1, the assignment and objective
produced by a single assignment step against the given centers, and the
center matrix unchanged. -/
theorem kmeans_assignment_only (ui : Bool) (points : List (List ℚ))
    (centers : List (Option (List ℚ))) (tol : ℚ) (fuel : ℕ)
    (hm : 0 < points.length) (hn : 0 < (points.headD []).length)
    (hk : 0 < centers.length) (hf : 0 < fuel) :
    kmeans ui fuel points centers 0 tol
      = some ((assignStep ui centers (points.zip (List.replicate points.length (-1)))).1, 1,
              (assignStep ui centers (points.zip (List.replicate points.length (-1)))).2.2,
              centers.length * points.length, centers) := by
  obtain ⟨fl, rfl⟩ : ∃ fl, fuel = fl + 1 := ⟨fuel - 1, by omega⟩
  simp only [kmeans]
  rw [if_pos ⟨hm, hn, hk⟩, kmeansLoop_break_zero]
  simp

/-- C8 witness. -/
theorem kmeans_assignment_only_witness :
    kmeans true 1 [[(0 : ℚ)], [2]] [some [1]] 0 0
      = some ((assignStep true [some [1]]
                ([[(0 : ℚ)], [2]].zip (List.replicate ([[(0 : ℚ)], [2]] : List (List ℚ)).length (-1)))).1, 1,
              (assignStep true [some [1]]
                ([[(0 : ℚ)], [2]].zip (List.replicate ([[(0 : ℚ)], [2]] : List (List ℚ)).length (-1)))).2.2,
              ([some [1]] : List (Option (List ℚ))).length * ([[(0 : ℚ)], [2]] : List (List ℚ)).length,
              [some [1]]) :=
  kmeans_assignment_only true [[(0 : ℚ)], [2]] [some [1]] 0 1
    (by decide) (by decide) (by decide) (by decide)

/-- C6 counterexample: on two one-dimensional points with a single
center, `kmeans` (unbounded iteration cap, zero tolerance) returns
iteration count 2, not 1: the first pass assigns everyone (all
assignments change from the initial `-1`), and only the second pass can
observe zero changes and break. -/
theorem kmeans_single_center_counterexample :
    (kmeans true 5 [[(0 : ℚ)], [2]] [some [0]] (-1) 0).map (fun r => r.2.1) = some 2 ∧
      (2 : ℕ) ≠ 1 := by
  constructor
  · rfl
  · decide

/-- C6 (amended): `kmeans` with a single center on a non-empty point set
(unbounded iteration cap, tolerance below 1, enough fuel) converges in
exactly TWO iterations — the second assignment pass detects zero changes —
and the objective it returns equals the total sum of squared deviations of
the points from their single centroid (with the final center row equal to
that centroid and `n_dists = 2 * k * m = 2 * m`). -/
theorem kmeans_single_center (points : List (List ℚ)) (c : List ℚ)
    (maxIters : ℤ) (tol : ℚ) (fuel : ℕ)
    (hpts : points ≠ []) (hn : 0 < (points.headD []).length)
    (hmi : maxIters < 0) (htol : tol < 1) (hf : 2 ≤ fuel) :
    kmeans true fuel points [some c] maxIters tol
      = some (((specTotalSquaredDeviation points
                  (centroidOf points (points.headD []).length) : ℚ) : WithTop ℚ), 2,
              List.replicate points.length 0, 2 * points.length,
              [some (centroidOf points (points.headD []).length)]) := by
  obtain ⟨fl, rfl⟩ : ∃ fl, fuel = fl + 1 + 1 := ⟨fuel - 2, by omega⟩
  have hm : 0 < points.length := List.length_pos.mpr hpts
  have hd1 : decide ((0 : ℤ) ≤ maxIters) = false := decide_eq_false (by omega)
  have hd2 : (points.length == 0) = false := by
    simp only [beq_eq_false_iff_ne, ne_eq]
    omega
  have hd3 : decide ((1 : ℚ) ≤ tol) = false := decide_eq_false (not_le.mpr htol)
  have hAssign1 := assignStep_singleton true c (-1) points
  rw [if_neg (by decide : ¬ (-1 : ℤ) = 0)] at hAssign1
  have hAssign2 := assignStep_singleton true
    (centroidOf points (points.headD []).length) 0 points
  rw [if_pos rfl] at hAssign2
  simp only [kmeans]
  rw [if_pos ⟨hm, hn, (by norm_num : 0 < ([some c] : List (Option (List ℚ))).length)⟩]
  simp only [kmeansLoop, zip_replicate, hAssign1, hd1, Bool.false_and, Bool.false_or,
    toleranceLE_coe_top, hd3, Bool.and_false, Bool.or_false, hd2, List.length_singleton]
  rw [if_neg (by simp)]
  rw [updateCenters_singleton points _ hpts]
  simp only [zip_replicate, hAssign2]
  rw [if_pos (by simp)]
  simp only [Option.map_some, List.length_singleton, specTotalSquaredDeviation, dist2_eq_sq]
  norm_num

/-- C6 witness. -/
theorem kmeans_single_center_witness :
    kmeans true 5 [[(1 : ℚ)], [3]] [some [0]] (-1) 0
      = some (((specTotalSquaredDeviation [[(1 : ℚ)], [3]]
                  (centroidOf [[(1 : ℚ)], [3]]
                    (([[(1 : ℚ)], [3]] : List (List ℚ)).headD []).length) : ℚ) : WithTop ℚ), 2,
              List.replicate ([[(1 : ℚ)], [3]] : List (List ℚ)).length 0,
              2 * ([[(1 : ℚ)], [3]] : List (List ℚ)).length,
              [some (centroidOf [[(1 : ℚ)], [3]]
                (([[(1 : ℚ)], [3]] : List (List ℚ)).headD []).length)]) :=
  kmeans_single_center [[(1 : ℚ)], [3]] [0] (-1) 0 5
    (by decide) (by decide) (by decide) (by decide) (by decide)

end BiModalClust
